import Mathlib

/-!
Verification of the openeval evaluation harness: a shallow embedding of the
core data model (types.py, test_case.py), the deterministic scorers
(exact_match.py, contains.py, tool_correctness.py), the LLM-judge response
parsers (llm_judge.py, faithfulness.py), the evaluation orchestrator
(eval.py) and the experiment comparison (experiment.py), together with
theorems settling the frozen claims about this code.

Python floats are modelled as exact rationals (ℚ), Python `Optional` as
`Option`, a raised exception as the error branch of `Except`, and a Python
dict as an insertion-ordered association list with unique keys.
-/

namespace OpenEval

/-- Result from scoring a single test case (types.py, class ScoreResult). -/
structure ScoreResult where
  name : String
  value : ℚ
  reason : Option String := none
  passed : Option Bool := none
  threshold : Option ℚ := none
  token_usage : Option Nat := none
  cost_usd : Option ℚ := none
deriving Repr, DecidableEq

/-- A single test case (test_case.py, class TestCase); only the fields the
scorers and orchestrator consume are modelled. -/
structure TestCase where
  id : String := ""
  input : String
  actual_output : Option String := none
  expected_output : Option String := none
  context : Option (List String) := none
  tools_called : Option (List String) := none
  expected_tools : Option (List String) := none
deriving Repr, DecidableEq

/-- Evaluation results for one test case (types.py, class EvalResult); the
`scores` dict is an insertion-ordered association list. -/
structure EvalResult where
  test_case_id : String
  input : String
  actual_output : String
  expected_output : Option String
  scores : List (String × ScoreResult)
  error : Option String
deriving Repr, DecidableEq

/-- Default used with `List.getD` when indexing test-case lists. -/
def dfltTC : TestCase := { input := "" }

/-- Default used with `List.getD` when indexing result lists. -/
def dfltER : EvalResult :=
  { test_case_id := "", input := "", actual_output := "", expected_output := none,
    scores := [], error := none }

/-- Truthiness of a Python `Optional[str]`: `None` and the empty string are
falsy, every other string is truthy. -/
def strTruthy (o : Option String) : Bool := decide (o.getD "" ≠ "")

/-- Python `str.lower()` (ASCII model). -/
def pyLower (s : String) : String := ⟨s.data.map Char.toLower⟩

/-- Does `n` occur at the start of `h`? (model of Python `startswith` on
character lists; used to define the substring test). -/
def startsList : List Char → List Char → Bool
  | [], _ => true
  | _ :: _, [] => false
  | a :: as, b :: bs => a = b && startsList as bs

/-- Python's substring operator `n in h` on character lists. -/
def hasSub : List Char → List Char → Bool
  | n, [] => n.isEmpty
  | n, h :: t => startsList n (h :: t) || hasSub n t

theorem startsList_iff (n h : List Char) :
    startsList n h = true ↔ ∃ q, h = n ++ q := by
  induction n generalizing h with
  | nil => simp [startsList]
  | cons a as ih =>
    cases h with
    | nil => simp [startsList]
    | cons b bs =>
      simp only [startsList, Bool.and_eq_true, decide_eq_true_eq, ih]
      constructor
      · rintro ⟨rfl, q, rfl⟩; exact ⟨q, rfl⟩
      · rintro ⟨q, hq⟩
        injection hq with h1 h2
        exact ⟨h1.symm, q, h2⟩

theorem hasSub_iff (n h : List Char) :
    hasSub n h = true ↔ ∃ p q, h = p ++ n ++ q := by
  induction h with
  | nil =>
    simp only [hasSub, List.isEmpty_iff]
    constructor
    · rintro rfl; exact ⟨[], [], rfl⟩
    · rintro ⟨p, q, hpq⟩
      rcases List.append_eq_nil.mp (List.append_eq_nil.mp hpq.symm).1 with ⟨_, h2⟩
      exact h2
  | cons c t ih =>
    simp only [hasSub, Bool.or_eq_true, startsList_iff, ih]
    constructor
    · rintro (⟨q, hq⟩ | ⟨p, q, rfl⟩)
      · exact ⟨[], q, by simpa using hq⟩
      · exact ⟨c :: p, q, rfl⟩
    · rintro ⟨p, q, hpq⟩
      cases p with
      | nil => exact Or.inl ⟨q, by simpa using hpq⟩
      | cons x xs =>
        injection hpq with h1 h2
        exact Or.inr ⟨xs, q, h2⟩

/-- Python dict assignment `d[k] = v` on an insertion-ordered association
list with unique keys: an existing key keeps its position and gets the new
value, a fresh key is appended at the end. -/
def dictInsert {α : Type} : List (String × α) → String → α → List (String × α)
  | [], k, v => [(k, v)]
  | (k', v') :: t, k, v =>
    if k' = k then (k, v) :: t else (k', v') :: dictInsert t k v

/-- Python dict lookup `d.get(k)` on an association list. -/
def alookup {α : Type} : List (String × α) → String → Option α
  | [], _ => none
  | (k, v) :: t, j => if j = k then some v else alookup t j

theorem dictInsert_alookup_self {α : Type} (d : List (String × α)) (k : String) (v : α) :
    alookup (dictInsert d k v) k = some v := by
  induction d with
  | nil => simp [dictInsert, alookup]
  | cons p t ih =>
    obtain ⟨k', v'⟩ := p
    by_cases h : k' = k
    · subst h; simp [dictInsert, alookup]
    · have hne : k ≠ k' := fun h' => h h'.symm
      simp [dictInsert, h, alookup, hne, ih]

theorem dictInsert_alookup_ne {α : Type} (d : List (String × α)) (k j : String) (v : α)
    (h : j ≠ k) : alookup (dictInsert d k v) j = alookup d j := by
  induction d with
  | nil => simp [dictInsert, alookup, h]
  | cons p t ih =>
    obtain ⟨k', v'⟩ := p
    by_cases hk : k' = k
    · subst hk; simp [dictInsert, alookup, h]
    · by_cases hj : j = k'
      · subst hj; simp [dictInsert, hk, alookup]
      · simp [dictInsert, hk, alookup, hj, ih]

theorem dictInsert_map_fst_of_fresh {α : Type} (d : List (String × α)) (k : String) (v : α)
    (h : alookup d k = none) :
    (dictInsert d k v).map Prod.fst = d.map Prod.fst ++ [k] := by
  induction d with
  | nil => simp [dictInsert]
  | cons p t ih =>
    obtain ⟨k', v'⟩ := p
    simp only [alookup] at h
    by_cases hj : k = k'
    · simp [hj] at h
    · simp only [if_neg hj] at h
      have hk : k' ≠ k := fun h' => hj h'.symm
      simp [dictInsert, hk, ih h]

/-!  ### ExactMatchScorer (scorers/exact_match.py)  -/

/-- Configuration of ExactMatchScorer. -/
structure ExactMatchScorer where
  case_sensitive : Bool := true
  threshold : ℚ := 1/2
deriving Repr, DecidableEq

/-- ExactMatchScorer.score: raises ValueError when `expected_output` is
None; returns value 0.0 when `actual_output` is None; otherwise compares
the two strings (lowercased when not case-sensitive). -/
def ExactMatchScorer.score (self : ExactMatchScorer) (tc : TestCase) :
    Except String ScoreResult :=
  match tc.expected_output with
  | none => .error "ExactMatchScorer requires test_case.expected_output"
  | some expected =>
    match tc.actual_output with
    | none =>
      .ok { name := "ExactMatch", value := 0, reason := some "actual_output is None",
            passed := some false, threshold := some self.threshold }
    | some actual =>
      let m : Bool := if self.case_sensitive then actual = expected
                      else pyLower actual = pyLower expected
      let value : ℚ := if m then 1 else 0
      let reason := if m then "Outputs match exactly"
                    else "Expected '" ++ expected ++ "', got '" ++ actual ++ "'"
      .ok { name := "ExactMatch", value := value, reason := some reason,
            passed := some (decide (self.threshold ≤ value)),
            threshold := some self.threshold }

/-!  ### ContainsAnyScorer / ContainsAllScorer (scorers/contains.py)  -/

/-- Configuration of ContainsAllScorer. -/
structure ContainsAllScorer where
  keywords : List String
  threshold : ℚ := 1/2
deriving Repr, DecidableEq

/-- The case-insensitive keyword test `kw.lower() in actual.lower()`. -/
def kwFound (kw out : String) : Bool := hasSub (pyLower kw).data (pyLower out).data

/-- ContainsAllScorer.score: fraction of keywords found as case-insensitive
substrings; empty keyword list scores 1.0; falsy `actual_output` scores 0.0. -/
def ContainsAllScorer.score (self : ContainsAllScorer) (tc : TestCase) : ScoreResult :=
  if self.keywords.isEmpty then
    { name := "ContainsAll", value := 1, reason := some "No keywords specified",
      passed := some true, threshold := some self.threshold }
  else if !strTruthy tc.actual_output then
    { name := "ContainsAll", value := 0, reason := some "actual_output is empty",
      passed := some false, threshold := some self.threshold }
  else
    let out := tc.actual_output.getD ""
    let found := self.keywords.filter (fun kw => kwFound kw out)
    let value : ℚ := (found.length : ℚ) / (self.keywords.length : ℚ)
    { name := "ContainsAll", value := value,
      reason := some ("Found " ++ toString found.length ++ "/" ++
                      toString self.keywords.length ++ " keywords: " ++
                      String.intercalate ", " found),
      passed := some (decide (self.threshold ≤ value)),
      threshold := some self.threshold }

/-!  ### ToolCorrectnessScorer (scorers/tool_correctness.py)  -/

/-- The inner `for act_tool in actual_iter` loop of the ordered mode:
advance the iterator until `exp` is found (consuming it) or the iterator is
exhausted; returns whether a match happened and the iterator's remaining
suffix. -/
def consumeUntil (exp : String) : List String → Bool × List String
  | [] => (false, [])
  | a :: rest => if a = exp then (true, rest) else consumeUntil exp rest

/-- The ordered-mode match count: walk the expected tools in sequence,
each one scanning the shared iterator state left by its predecessor. -/
def orderedMatched : List String → List String → Nat
  | [], _ => 0
  | e :: es, avail =>
    match consumeUntil e avail with
    | (true, rest) => 1 + orderedMatched es rest
    | (false, rest) => orderedMatched es rest

/-- Modelled from the spec's words for the ordered mode: find each expected
tool in order in the still-unconsumed suffix, consuming through its first
occurrence; a consumed tool is never rematched, and a failed search has
consumed the whole remaining sequence. -/
def greedyFromSpec : List String → List String → Nat
  | [], _ => 0
  | e :: es, avail =>
    if e ∈ avail then 1 + greedyFromSpec es ((avail.dropWhile (fun a => a ≠ e)).tail)
    else greedyFromSpec es []

/-- Configuration of ToolCorrectnessScorer. -/
structure ToolCorrectnessScorer where
  check_order : Bool := false
  threshold : ℚ := 1/2
deriving Repr, DecidableEq

/-- ToolCorrectnessScorer.score: raises ValueError when `expected_tools` is
None; scores 0.0 when `tools_called` is None; otherwise counts matched
tools in ordered (greedy iterator) or unordered (set membership) mode and
divides by the number of expected tools (1.0 when that list is empty). -/
def ToolCorrectnessScorer.score (self : ToolCorrectnessScorer) (tc : TestCase) :
    Except String ScoreResult :=
  match tc.expected_tools with
  | none => .error "ToolCorrectnessScorer requires test_case.expected_tools"
  | some expected =>
    match tc.tools_called with
    | none =>
      .ok { name := "ToolCorrectness", value := 0, reason := some "tools_called is None",
            passed := some false, threshold := some self.threshold }
    | some actual =>
      let matched : Nat :=
        if self.check_order then orderedMatched expected actual
        else (expected.filter (fun tool => tool ∈ actual)).length
      let value : ℚ :=
        if expected.isEmpty then 1 else (matched : ℚ) / (expected.length : ℚ)
      let reason :=
        if self.check_order then
          "Matched " ++ toString matched ++ "/" ++ toString expected.length ++
            " tools in order"
        else
          "Matched " ++ toString matched ++ "/" ++ toString expected.length ++
            " expected tools (extra tools: " ++
            toString ((actual.length : Int) - (matched : Int)) ++ ")"
      .ok { name := "ToolCorrectness", value := value, reason := some reason,
            passed := some (decide (self.threshold ≤ value)),
            threshold := some self.threshold }

theorem consumeUntil_of_mem (e : String) (avail : List String) (h : e ∈ avail) :
    consumeUntil e avail = (true, (avail.dropWhile (fun a => a ≠ e)).tail) := by
  induction avail with
  | nil => cases h
  | cons a rest ih =>
    by_cases ha : a = e
    · subst ha; simp [consumeUntil, List.dropWhile]
    · have he : e ∈ rest := by
        rcases List.mem_cons.mp h with h' | h'
        · exact absurd h'.symm ha
        · exact h'
      simp [consumeUntil, ha, List.dropWhile, ih he]

theorem consumeUntil_of_not_mem (e : String) (avail : List String) (h : e ∉ avail) :
    consumeUntil e avail = (false, []) := by
  induction avail with
  | nil => rfl
  | cons a rest ih =>
    have ha : a ≠ e := fun h' => h (h' ▸ List.mem_cons_self a rest)
    have he : e ∉ rest := fun h' => h (List.mem_cons_of_mem a h')
    simp [consumeUntil, ha, ih he]

theorem orderedMatched_eq_greedyFromSpec (expected actual : List String) :
    orderedMatched expected actual = greedyFromSpec expected actual := by
  induction expected generalizing actual with
  | nil => rfl
  | cons e es ih =>
    by_cases h : e ∈ actual
    · rw [orderedMatched, consumeUntil_of_mem e actual h]
      show 1 + orderedMatched es _ = _
      rw [greedyFromSpec, if_pos h, ih]
    · rw [orderedMatched, consumeUntil_of_not_mem e actual h]
      show orderedMatched es [] = _
      rw [greedyFromSpec, if_neg h, ih]

theorem orderedMatched_nil_avail (es : List String) : orderedMatched es [] = 0 := by
  induction es with
  | nil => rfl
  | cons e es ih => simpa [orderedMatched, consumeUntil] using ih

/-!  ### Evaluation orchestrator (eval.py)  -/

/-- A scorer instance as the orchestrator sees it: a `name`, an optional
`threshold` attribute (`getattr(scorer, "threshold", 0.0)` defaults to 0.0
when absent) and the `score` capability. -/
structure Scorer where
  name : String
  threshold : Option ℚ := none
  score : TestCase → ScoreResult

/-- The `for scorer in scorers` loop of Eval: run every scorer, key each
ScoreResult by its own `name` in the scores dict, and accumulate the
reported `cost_usd` (adding 0 models Python's falsy skip of None/0.0). -/
def runScorersGo (tc : TestCase) :
    List Scorer → List (String × ScoreResult) → ℚ → List (String × ScoreResult) × ℚ
  | [], acc, cost => (acc, cost)
  | s :: rest, acc, cost =>
    let r := s.score tc
    runScorersGo tc rest (dictInsert acc r.name r) (cost + r.cost_usd.getD 0)

/-- One iteration of Eval's main loop: run the task (if any) with exception
capture, then run all scorers when no task error occurred, and build the
item's EvalResult. -/
def runItem (task : Option (String → Except String String)) (scorers : List Scorer)
    (tc : TestCase) : EvalResult × ℚ :=
  let step : TestCase × Option String :=
    match task with
    | none => (tc, none)
    | some f =>
      match f tc.input with
      | .ok out => ({ tc with actual_output := some out }, none)
      | .error e => (tc, some e)
  let tc2 := step.1
  let error := step.2
  let sc : List (String × ScoreResult) × ℚ :=
    if error.isNone then runScorersGo tc2 scorers [] 0 else ([], 0)
  ({ test_case_id := tc2.id, input := tc2.input,
     actual_output := tc2.actual_output.getD "",
     expected_output := tc2.expected_output,
     scores := sc.1, error := error }, sc.2)

/-- The score list a scorer name contributes to the summary: values of the
items that carry that name in their scores dict and have no task error
(_compute_summary's list comprehension). -/
def scorerScores (results : List EvalResult) (name : String) : List ℚ :=
  results.filterMap
    (fun r => if r.error = none then (alookup r.scores name).map ScoreResult.value
              else none)

/-- Python `min` over a nonempty list (the empty branch is never reached by
_compute_summary, which guards on a nonempty score list). -/
def listMin : List ℚ → ℚ
  | [] => 0
  | h :: t => t.foldl min h

/-- Python `max` over a nonempty list. -/
def listMax : List ℚ → ℚ
  | [] => 0
  | h :: t => t.foldl max h

/-- Per-scorer summary statistics (eval.py, _compute_summary inner dict). -/
structure Stats where
  mean : ℚ
  min : ℚ
  max : ℚ
  pass_rate : ℚ
deriving Repr, DecidableEq

/-- The statistics _compute_summary builds from a nonempty score list and a
threshold attribute. -/
def statsOf (thresholdAttr : ℚ) (scores : List ℚ) : Stats :=
  { mean := scores.sum / (scores.length : ℚ),
    min := listMin scores,
    max := listMax scores,
    pass_rate := ((scores.filter (fun v => thresholdAttr ≤ v)).length : ℚ) /
                 (scores.length : ℚ) }

/-- The `for scorer in scorers` loop of _compute_summary: a scorer with an
empty score list is skipped, any other writes its statistics under its
name. -/
def computeSummaryGo (results : List EvalResult) :
    List Scorer → List (String × Stats) → List (String × Stats)
  | [], summary => summary
  | s :: rest, summary =>
    let scores := scorerScores results s.name
    if scores.isEmpty then computeSummaryGo results rest summary
    else computeSummaryGo results rest
      (dictInsert summary s.name (statsOf (s.threshold.getD 0) scores))

/-- eval.py, _compute_summary. -/
def computeSummary (results : List EvalResult) (scorers : List Scorer) :
    List (String × Stats) :=
  computeSummaryGo results scorers []

/-- eval.py, Eval: validate, run every item in order, compute the summary
and the total cost (name, wall-clock duration and data normalization of
already-built test cases are identities and are elided). -/
def EvalRun (data : List TestCase) (task : Option (String → Except String String))
    (scorers : List Scorer) :
    Except String (List EvalResult × List (String × Stats) × ℚ) :=
  if data.isEmpty then .error "data cannot be empty"
  else if scorers.isEmpty then .error "scorers cannot be empty"
  else
    let step := data.map (runItem task scorers)
    let results := step.map Prod.fst
    .ok (results, computeSummary results scorers, (step.map Prod.snd).sum)

/-!  ### Experiment comparison (experiment.py)  -/

/-- One entry of the comparison dict (experiment.py, compare_experiments). -/
structure CompEntry where
  baseline : ℚ
  candidate : ℚ
  delta : ℚ
  improved : Bool
deriving Repr, DecidableEq

/-- The comparison entry built for one candidate-summary scorer name. -/
def compEntryOf (baseline : List (String × Stats)) (name : String) (st : Stats) :
    CompEntry :=
  let base_mean := match alookup baseline name with
    | some bs => bs.mean
    | none => 0
  let cand_mean := st.mean
  let delta := cand_mean - base_mean
  { baseline := base_mean, candidate := cand_mean, delta := delta,
    improved := decide (0 < delta) }

/-- The `for scorer_name in candidate.summary` loop of compare_experiments. -/
def compareGo (baseline : List (String × Stats)) :
    List (String × Stats) → List (String × CompEntry) → List (String × CompEntry)
  | [], comp => comp
  | (name, st) :: rest, comp =>
    compareGo baseline rest (dictInsert comp name (compEntryOf baseline name st))

/-- experiment.py, compare_experiments. -/
def compare_experiments (baseline candidate : List (String × Stats)) :
    List (String × CompEntry) :=
  compareGo baseline candidate []

/-!  ### Judge response parsing (scorers/llm_judge.py, scorers/faithfulness.py)

The judge scorers feed the chat client's free-text response through
`json.loads`, Python `dict.get` / `float` coercions and a regex fallback.
The Python values and the relevant stdlib behaviour are modelled
explicitly, so that the raising / non-raising behaviour of the parsers is
visible: `dict.get` on a non-dict raises AttributeError, and the source's
`except` clause catches JSONDecodeError, KeyError, ValueError and
TypeError but not AttributeError.  -/

/-- A Python value as produced by `json.loads`. -/
inductive PyVal where
  | pyNone : PyVal
  | pyBool : Bool → PyVal
  | pyNum : ℚ → PyVal
  | pyStr : String → PyVal
  | pyList : List PyVal → PyVal
  | pyDict : List (String × PyVal) → PyVal

/-- The Python exception classes this code can meet; the source catches
ValueError and TypeError (and JSONDecodeError/KeyError) but lets
AttributeError escape. -/
inductive PyErr where
  | attributeError : PyErr
  | valueError : PyErr
  | typeError : PyErr
deriving Repr, DecidableEq

/-- JSON/regex whitespace: space, tab, newline, carriage return. -/
def isWsChar (c : Char) : Bool := c = ' ' || c = '\t' || c = '\n' || c = '\r'

/-- Drop leading whitespace. -/
def skipWs (l : List Char) : List Char := l.dropWhile isWsChar

/-- Numeric value of a digit run. -/
def digitsVal (ds : List Char) : Nat :=
  ds.foldl (fun n c => 10 * n + (c.toNat - '0'.toNat)) 0

/-- Parse a JSON number (optional minus, digits, optional fraction; the
exponent form is outside this model's scope and never exercised). -/
def parseNumber (l : List Char) : Option (ℚ × List Char) :=
  let p : Bool × List Char := match l with
    | '-' :: t => (true, t)
    | _ => (false, l)
  let ds := p.2.takeWhile Char.isDigit
  if ds.isEmpty then none
  else
    let rest1 := p.2.drop ds.length
    match rest1 with
    | '.' :: r2 =>
      let fs := r2.takeWhile Char.isDigit
      if fs.isEmpty then none
      else
        let v : ℚ := (digitsVal ds : ℚ) + (digitsVal fs : ℚ) / ((10 : ℚ) ^ fs.length)
        some ((if p.1 then -v else v), r2.drop fs.length)
    | _ =>
      let v : ℚ := (digitsVal ds : ℚ)
      some ((if p.1 then -v else v), rest1)

/-- Parse the body of a JSON string after the opening quote (escape
sequences are outside this model's scope and never exercised). -/
def parseStrChars : List Char → Option (List Char × List Char)
  | [] => none
  | c :: t =>
    if c = '"' then some ([], t)
    else if c = '\\' then none
    else (parseStrChars t).map (fun p => (c :: p.1, p.2))

mutual

/-- Recursive-descent JSON value parser (fuel-indexed model of the stdlib
`json.loads` grammar on the fragment these scorers exercise). -/
def parseVal : Nat → List Char → Option (PyVal × List Char)
  | 0, _ => none
  | Nat.succ fuel, l =>
    match skipWs l with
    | [] => none
    | c :: t =>
      if c = 'n' then
        if startsList ['u', 'l', 'l'] t then some (.pyNone, t.drop 3) else none
      else if c = 't' then
        if startsList ['r', 'u', 'e'] t then some (.pyBool true, t.drop 3) else none
      else if c = 'f' then
        if startsList ['a', 'l', 's', 'e'] t then some (.pyBool false, t.drop 4) else none
      else if c = '"' then
        (parseStrChars t).map (fun p => (.pyStr ⟨p.1⟩, p.2))
      else if c = '{' then
        match skipWs t with
        | '}' :: r => some (.pyDict [], r)
        | _ => (parseMembers fuel t).map (fun p => (.pyDict p.1, p.2))
      else if c = '[' then
        match skipWs t with
        | ']' :: r => some (.pyList [], r)
        | _ => (parseElems fuel t).map (fun p => (.pyList p.1, p.2))
      else
        (parseNumber (c :: t)).map (fun p => (.pyNum p.1, p.2))

/-- Parse a nonempty member list of a JSON object, up to and including the
closing brace. -/
def parseMembers : Nat → List Char → Option (List (String × PyVal) × List Char)
  | 0, _ => none
  | Nat.succ fuel, l =>
    match skipWs l with
    | '"' :: t =>
      match parseStrChars t with
      | none => none
      | some (key, r1) =>
        match skipWs r1 with
        | ':' :: r2 =>
          match parseVal fuel r2 with
          | none => none
          | some (v, r3) =>
            match skipWs r3 with
            | ',' :: r4 =>
              (parseMembers fuel r4).map (fun p => ((⟨key⟩, v) :: p.1, p.2))
            | '}' :: r4 => some ([(⟨key⟩, v)], r4)
            | _ => none
        | _ => none
    | _ => none

/-- Parse a nonempty element list of a JSON array, up to and including the
closing bracket. -/
def parseElems : Nat → List Char → Option (List PyVal × List Char)
  | 0, _ => none
  | Nat.succ fuel, l =>
    match parseVal fuel l with
    | none => none
    | some (v, r) =>
      match skipWs r with
      | ',' :: r2 => (parseElems fuel r2).map (fun p => (v :: p.1, p.2))
      | ']' :: r2 => some ([v], r2)
      | _ => none

end

/-- Model of Python `json.loads`: parse one value and require only
whitespace after it; `none` stands for a raised JSONDecodeError. -/
def json_loads (s : String) : Option PyVal :=
  match parseVal (s.data.length + 2) s.data with
  | some (v, rest) => if (skipWs rest).isEmpty then some v else none
  | none => none

/-- Python `parsed.get(key, default)`: on a dict the last binding of the
key wins (as in a Python dict built from JSON), on any other value the
attribute access raises AttributeError. -/
def pyGet : PyVal → String → PyVal → Except PyErr PyVal
  | .pyDict entries, key, dflt => .ok ((alookup entries.reverse key).getD dflt)
  | _, _, _ => .error .attributeError

/-- Model of Python `float(str)` on the optional-sign digits-and-dot
strings this code can produce (exponent, inf and nan forms are outside the
model's scope): at least one digit and at most one dot, else ValueError. -/
def pyFloatStr (s : String) : Option ℚ :=
  let t := ((s.data.dropWhile isWsChar).reverse.dropWhile isWsChar).reverse
  let p : Bool × List Char := match t with
    | '-' :: r => (true, r)
    | '+' :: r => (false, r)
    | _ => (false, t)
  let ds := p.2.takeWhile Char.isDigit
  let rest := p.2.drop ds.length
  match rest with
  | [] =>
    if ds.isEmpty then none
    else some (if p.1 then -(digitsVal ds : ℚ) else (digitsVal ds : ℚ))
  | '.' :: r =>
    let fs := r.takeWhile Char.isDigit
    if r.length ≠ fs.length then none
    else if ds.isEmpty && fs.isEmpty then none
    else
      let v : ℚ := (digitsVal ds : ℚ) + (digitsVal fs : ℚ) / ((10 : ℚ) ^ fs.length)
      some (if p.1 then -v else v)
  | _ => none

/-- Python `float(value)`: numbers and bools coerce, strings parse or raise
ValueError, everything else raises TypeError. -/
def pyFloat : PyVal → Except PyErr ℚ
  | .pyNum q => .ok q
  | .pyBool b => .ok (if b then 1 else 0)
  | .pyStr s =>
    match pyFloatStr s with
    | some q => .ok q
    | none => .error .valueError
  | _ => .error .typeError

/-- Python `str.strip()` (ASCII whitespace model). -/
def pyStrip (s : String) : String :=
  ⟨((s.data.dropWhile isWsChar).reverse.dropWhile isWsChar).reverse⟩

/-- llm_judge.py lines 156-161: strip a leading markdown fence (three
backticks, an optional language tag of ASCII letters, an optional newline)
and a trailing fence followed only by whitespace, then strip whitespace. -/
def stripFences (content : String) : String :=
  let cleaned := pyStrip content
  if startsList ['`', '`', '`'] cleaned.data then
    let l1 := cleaned.data.drop 3
    let l2 := l1.dropWhile Char.isAlpha
    let l3 : List Char := match l2 with
      | '\n' :: t => t
      | _ => l2
    let r := l3.reverse.dropWhile isWsChar
    let l4 := if startsList ['`', '`', '`'] r then (r.drop 3).reverse else l3
    pyStrip ⟨l4⟩
  else cleaned

/-- Try the regex `"score"\s*:\s*([0-9.]+)` at the head of the list,
returning the greedy capture. -/
def matchScoreAt (l : List Char) : Option (List Char) :=
  if startsList ['"', 's', 'c', 'o', 'r', 'e', '"'] l then
    match skipWs (l.drop 7) with
    | ':' :: r2 =>
      let num := (skipWs r2).takeWhile (fun c => c.isDigit || c = '.')
      if num.isEmpty then none else some num
    | _ => none
  else none

/-- `re.search` for the score pattern: leftmost position that matches. -/
def searchScore : List Char → Option (List Char)
  | [] => none
  | c :: t =>
    match matchScoreAt (c :: t) with
    | some n => some n
    | none => searchScore t

/-- Try the regex `"reason"\s*:\s*"([^"]+)"` at the head of the list. -/
def matchReasonAt (l : List Char) : Option (List Char) :=
  if startsList ['"', 'r', 'e', 'a', 's', 'o', 'n', '"'] l then
    match skipWs (l.drop 8) with
    | ':' :: r2 =>
      match skipWs r2 with
      | '"' :: r3 =>
        let body := r3.takeWhile (fun c => c ≠ '"')
        if body.isEmpty then none
        else
          match r3.drop body.length with
          | '"' :: _ => some body
          | _ => none
      | _ => none
    | _ => none
  else none

/-- `re.search` for the reason pattern: leftmost position that matches. -/
def searchReason : List Char → Option (List Char)
  | [] => none
  | c :: t =>
    match matchReasonAt (c :: t) with
    | some b => some b
    | none => searchReason t

/-- llm_judge.py, LLMJudgeScorer._parse_response: strip fences, JSON-parse,
coerce `score` through `float` with ValueError/TypeError (and a JSON decode
failure) falling through to the regex fallback on the raw content, and a
final (0.0, truncated-prefix message) fallback.  A non-dict JSON value
makes `parsed.get` raise AttributeError, which the except clause does not
catch, so it escapes as the error branch. -/
def llm_judge_parse (content : String) : Except PyErr (ℚ × PyVal) :=
  let cleaned := stripFences content
  let jsonStep : Except PyErr (Option (ℚ × PyVal)) :=
    match json_loads cleaned with
    | none => .ok none
    | some parsed =>
      match pyGet parsed "score" (.pyNum 0) with
      | .error e => .error e
      | .ok sv =>
        match pyFloat sv with
        | .error _ => .ok none
        | .ok q =>
          match pyGet parsed "reason" (.pyStr "") with
          | .error e => .error e
          | .ok rv => .ok (some (q, rv))
  match jsonStep with
  | .error e => .error e
  | .ok (some res) => .ok res
  | .ok none =>
    match searchScore content.data with
    | some num =>
      match pyFloatStr ⟨num⟩ with
      | some q =>
        .ok (q, .pyStr ((searchReason content.data).elim "Extracted via regex"
                          (fun b => ⟨b⟩)))
      | none =>
        .ok (0, .pyStr ("Failed to parse judge response: " ++ ⟨content.data.take 200⟩))
    | none =>
      .ok (0, .pyStr ("Failed to parse judge response: " ++ ⟨content.data.take 200⟩))

/-- faithfulness.py, FaithfulnessScorer._parse_response: JSON-parse the raw
content (no fence stripping), coerce `score` through `float`; a decode
failure or a caught ValueError/TypeError yields (0.0, truncated-prefix
message); there is no regex fallback, and a non-dict JSON value raises
AttributeError exactly as in the judge parser. -/
def faithfulness_parse (content : String) : Except PyErr (ℚ × PyVal) :=
  match json_loads content with
  | none => .ok (0, .pyStr ("Failed to parse response: " ++ ⟨content.data.take 100⟩))
  | some parsed =>
    match pyGet parsed "score" (.pyNum 0) with
    | .error e => .error e
    | .ok sv =>
      match pyFloat sv with
      | .error _ =>
        .ok (0, .pyStr ("Failed to parse response: " ++ ⟨content.data.take 100⟩))
      | .ok q =>
        match pyGet parsed "reason" (.pyStr "") with
        | .error e => .error e
        | .ok rv => .ok (q, rv)

/-- The clamp `max(0.0, min(1.0, score_val))` both judge scorers apply. -/
def clamp01 (q : ℚ) : ℚ := max 0 (min 1 q)

/-- llm_judge.py lines 95-98: the score value LLMJudgeScorer.score derives
from a given judge response (the chat client is an external collaborator,
so its response content is a parameter). -/
def llm_judge_score_value (content : String) : Except PyErr ℚ :=
  (llm_judge_parse content).map (fun p => clamp01 p.1)

/-- faithfulness.py lines 96-99: the clamped score value for a response. -/
def faithfulness_score_value (content : String) : Except PyErr ℚ :=
  (faithfulness_parse content).map (fun p => clamp01 p.1)

/-!  ## Claim theorems  -/

/-- The ordered-mode greedy count of duplicate-free expected tools equals
the cardinality of the set intersection when the count is taken by set
membership (helper for the unordered mode's formula). -/
theorem filter_mem_length_eq_card (expected actual : List String)
    (h : expected.Nodup) :
    (expected.filter (fun t => t ∈ actual)).length
      = (expected.toFinset ∩ actual.toFinset).card := by
  induction expected with
  | nil => simp
  | cons e es ih =>
    rw [List.nodup_cons] at h
    obtain ⟨he, hes⟩ := h
    by_cases hm : e ∈ actual
    · rw [List.filter_cons_of_pos (by simpa using hm)]
      simp only [List.length_cons, List.toFinset_cons]
      rw [Finset.insert_inter_of_mem (by simpa using hm),
        Finset.card_insert_of_not_mem (by simp; intro h' _; exact he h'), ih hes]
    · rw [List.filter_cons_of_neg (by simpa using hm)]
      simp only [List.toFinset_cons]
      rw [Finset.insert_inter_of_not_mem (by simpa using hm), ih hes]

/-- Value characterization of the ordered mode on a test case with both
tool lists present and a nonempty expected list. -/
theorem tool_ordered_value (expected actual : List String) (thr : ℚ) (tc : TestCase)
    (he : tc.expected_tools = some expected) (ht : tc.tools_called = some actual)
    (hne : expected ≠ []) :
    ∃ r, ToolCorrectnessScorer.score { check_order := true, threshold := thr } tc
        = .ok r ∧
      r.value = (orderedMatched expected actual : ℚ) / (expected.length : ℚ) := by
  rcases tc with ⟨id, inp, ao, eo, cx, tcalls, etools⟩
  simp only at he ht
  subst he; subst ht
  refine ⟨_, rfl, ?_⟩
  show (if expected.isEmpty = true then (1 : ℚ)
        else ((if True then orderedMatched expected actual
               else (expected.filter (fun tool => tool ∈ actual)).length : ℕ) : ℚ)
               / (expected.length : ℚ)) = _
  rw [if_neg (by simpa [List.isEmpty_iff] using hne), if_pos trivial]

/-- Value characterization of the unordered mode on a test case with both
tool lists present and a nonempty expected list. -/
theorem tool_unordered_value (expected actual : List String) (thr : ℚ) (tc : TestCase)
    (he : tc.expected_tools = some expected) (ht : tc.tools_called = some actual)
    (hne : expected ≠ []) :
    ∃ r, ToolCorrectnessScorer.score { check_order := false, threshold := thr } tc
        = .ok r ∧
      r.value = ((expected.filter (fun tool => tool ∈ actual)).length : ℚ)
                  / (expected.length : ℚ) := by
  rcases tc with ⟨id, inp, ao, eo, cx, tcalls, etools⟩
  simp only at he ht
  subst he; subst ht
  refine ⟨_, rfl, ?_⟩
  show (if expected.isEmpty = true then (1 : ℚ)
        else ((if False then orderedMatched expected actual
               else (expected.filter (fun tool => tool ∈ actual)).length : ℕ) : ℚ)
               / (expected.length : ℚ)) = _
  rw [if_neg (by simpa [List.isEmpty_iff] using hne), if_neg not_false]

/-- C3: in ordered mode ToolCorrectnessScorer walks expected_tools in
sequence, greedily consuming the tools_called sequence without
backtracking (a consumed tool is never rematched), returning
(count matched in order) / |expected_tools|; for expected [A,B,C] and
actual [C,A,B] the value is 2/3, strictly below 1. -/
theorem C3_ordered_greedy :
    (∀ (expected actual : List String) (thr : ℚ) (tc : TestCase),
        tc.expected_tools = some expected → tc.tools_called = some actual →
        expected ≠ [] →
        ∃ r, ToolCorrectnessScorer.score { check_order := true, threshold := thr } tc
            = .ok r ∧
          r.value = (greedyFromSpec expected actual : ℚ) / (expected.length : ℚ))
    ∧ (∃ r, ToolCorrectnessScorer.score { check_order := true, threshold := 1/2 }
          { input := "i", expected_tools := some ["A", "B", "C"],
            tools_called := some ["C", "A", "B"] } = .ok r ∧
        r.value = 2/3 ∧ r.value < 1) := by
  constructor
  · intro expected actual thr tc he ht hne
    obtain ⟨r, hr, hv⟩ := tool_ordered_value expected actual thr tc he ht hne
    exact ⟨r, hr, by rw [hv, orderedMatched_eq_greedyFromSpec]⟩
  · obtain ⟨r, hr, hv⟩ :=
      tool_ordered_value ["A", "B", "C"] ["C", "A", "B"] (1/2)
        { input := "i", expected_tools := some ["A", "B", "C"],
          tools_called := some ["C", "A", "B"] } rfl rfl (by decide)
    rw [show orderedMatched ["A", "B", "C"] ["C", "A", "B"] = 2 from rfl] at hv
    norm_num at hv
    exact ⟨r, hr, hv, by rw [hv]; norm_num⟩

/-- C3 witness: the universal part applied at expected [A], actual [B,A]. -/
theorem C3_witness :
    ∃ r, ToolCorrectnessScorer.score { check_order := true, threshold := 1/2 }
        { input := "i", expected_tools := some ["A"], tools_called := some ["B", "A"] }
        = .ok r ∧
      r.value = (greedyFromSpec ["A"] ["B", "A"] : ℚ) / ((["A"] : List String).length : ℚ) :=
  C3_ordered_greedy.1 ["A"] ["B", "A"] (1/2) _ rfl rfl (by decide)

/-- C10: in ordered mode a missing expected tool makes the scan consume the
entire remaining tools_called suffix, so it and every later expected tool
is unmatched; expected [X,A] with actual [A] scores 0.0, not 0.5. -/
theorem C10_ordered_consumes_all :
    (∀ (e : String) (es avail : List String), e ∉ avail →
        orderedMatched (e :: es) avail = 0)
    ∧ (∃ r, ToolCorrectnessScorer.score { check_order := true, threshold := 1/2 }
          { input := "i", expected_tools := some ["X", "A"], tools_called := some ["A"] }
          = .ok r ∧ r.value = 0 ∧ r.value ≠ 1/2) := by
  constructor
  · intro e es avail h
    rw [orderedMatched, consumeUntil_of_not_mem e avail h]
    show orderedMatched es [] = 0
    exact orderedMatched_nil_avail es
  · obtain ⟨r, hr, hv⟩ :=
      tool_ordered_value ["X", "A"] ["A"] (1/2)
        { input := "i", expected_tools := some ["X", "A"], tools_called := some ["A"] }
        rfl rfl (by decide)
    rw [show orderedMatched ["X", "A"] ["A"] = 0 from rfl] at hv
    norm_num at hv
    exact ⟨r, hr, hv, by rw [hv]; norm_num⟩

/-- C10 witness: the universal part applied at e = X, es = [A], avail = [A]. -/
theorem C10_witness : orderedMatched ["X", "A"] ["A"] = 0 :=
  C10_ordered_consumes_all.1 "X" ["A"] ["A"] (by decide)

/-- C5 counterexample: with empty actual_output and empty expected_output
ExactMatchScorer returns value 1.0, not the claimed 0.0 — the code only
short-circuits on a None actual_output, not on an empty string. -/
theorem C5_counterexample :
    ∃ r, ExactMatchScorer.score { case_sensitive := true, threshold := 1/2 }
        { input := "i", actual_output := some "", expected_output := some "" } = .ok r ∧
      r.value = 1 ∧ r.value ≠ 0 :=
  ⟨_, rfl, by norm_num [ExactMatchScorer.score], by norm_num [ExactMatchScorer.score]⟩

/-- C5 (amended): ExactMatchScorer.score raises whenever expected_output is
None; returns value 0.0 (not an error) exactly when actual_output is None;
for a present (possibly empty) actual_output it returns 1.0 exactly when it
equals expected_output (lowercased when case_sensitive is false) and 0.0
otherwise. -/
theorem C5_amended (cs : Bool) (thr : ℚ) (tc : TestCase) :
    (tc.expected_output = none →
      ExactMatchScorer.score { case_sensitive := cs, threshold := thr } tc
        = .error "ExactMatchScorer requires test_case.expected_output")
    ∧ (∀ exp, tc.expected_output = some exp → tc.actual_output = none →
        ∃ r, ExactMatchScorer.score { case_sensitive := cs, threshold := thr } tc
            = .ok r ∧ r.value = 0)
    ∧ (∀ exp act, tc.expected_output = some exp → tc.actual_output = some act →
        ∃ r, ExactMatchScorer.score { case_sensitive := cs, threshold := thr } tc
            = .ok r ∧ (r.value = 1 ∨ r.value = 0) ∧
          (r.value = 1 ↔ (if cs then act = exp else pyLower act = pyLower exp))) := by
  rcases tc with ⟨id, inp, ao, eo, cx, tcalls, etools⟩
  refine ⟨?_, ?_, ?_⟩
  · intro h; simp only at h; subst h; rfl
  · intro exp h1 h2; simp only at h1 h2; subst h1; subst h2
    exact ⟨_, rfl, rfl⟩
  · intro exp act h1 h2; simp only at h1 h2; subst h1; subst h2
    refine ⟨_, rfl, ?_, ?_⟩
    · by_cases hm : (if cs = true then decide (act = exp)
                     else decide (pyLower act = pyLower exp)) = true
      · left
        show (if (if cs = true then decide (act = exp)
                  else decide (pyLower act = pyLower exp)) = true then (1 : ℚ) else 0) = 1
        rw [if_pos hm]
      · right
        show (if (if cs = true then decide (act = exp)
                  else decide (pyLower act = pyLower exp)) = true then (1 : ℚ) else 0) = 0
        rw [if_neg hm]
    · cases cs with
      | false =>
        by_cases hm : pyLower act = pyLower exp <;>
          simp [ExactMatchScorer.score, hm]
      | true =>
        by_cases hm : act = exp <;>
          simp [ExactMatchScorer.score, hm]

/-- C5 witness: the amended claim applied with case_sensitive = false at
actual "AbC" versus expected "abc". -/
theorem C5_witness :
    ∃ r, ExactMatchScorer.score { case_sensitive := false, threshold := 1/2 }
        { input := "i", actual_output := some "AbC", expected_output := some "abc" }
        = .ok r ∧ (r.value = 1 ∨ r.value = 0) ∧
      (r.value = 1 ↔ (if false then "AbC" = "abc" else pyLower "AbC" = pyLower "abc")) :=
  (C5_amended false (1/2) _).2.2 "abc" "AbC" rfl rfl

/-- C7: ContainsAllScorer scores the count of keywords whose lowercased
form is a substring (contiguous decomposition) of the lowercased output,
divided by the keyword count; an empty keyword list scores 1.0 regardless
of the output, and an empty output with nonempty keywords scores 0.0. -/
theorem C7_contains_all :
    (∀ n h : List Char, hasSub n h = true ↔ ∃ p q, h = p ++ n ++ q)
    ∧ (∀ (K : List String) (thr : ℚ) (tc : TestCase),
        (K = [] → (ContainsAllScorer.score ⟨K, thr⟩ tc).value = 1)
        ∧ (K ≠ [] → strTruthy tc.actual_output = false →
            (ContainsAllScorer.score ⟨K, thr⟩ tc).value = 0)
        ∧ (∀ out, tc.actual_output = some out → out ≠ "" → K ≠ [] →
            (ContainsAllScorer.score ⟨K, thr⟩ tc).value
              = ((K.filter (fun k => kwFound k out)).length : ℚ) / (K.length : ℚ))) := by
  refine ⟨hasSub_iff, ?_⟩
  intro K thr tc
  refine ⟨?_, ?_, ?_⟩
  · intro h; subst h; rfl
  · intro hK htr
    rw [ContainsAllScorer.score, if_neg (by simpa [List.isEmpty_iff] using hK)]
    rw [if_pos (by rw [htr]; rfl)]
  · intro out hout hne hK
    have htr : strTruthy tc.actual_output = true := by
      rw [hout]; simpa [strTruthy] using hne
    rw [ContainsAllScorer.score, if_neg (by simpa [List.isEmpty_iff] using hK),
      if_neg (by rw [htr]; simp)]
    simp only [hout, Option.getD_some]

/-- C8 counterexample: with the duplicated expected list [A, A, B] and
tools_called [A], the unordered value is 2/3 (expected entries counted with
multiplicity), which differs from the claimed set-intersection formula
|{expected} ∩ {actual}| / |expected| under either reading of the
denominator (1/3 for the list length, 1/2 for the set size). -/
theorem C8_counterexample :
    ∃ r, ToolCorrectnessScorer.score { check_order := false, threshold := 1/2 }
        { input := "i", expected_tools := some ["A", "A", "B"],
          tools_called := some ["A"] } = .ok r ∧
      r.value = 2/3 ∧
      r.value ≠ (((["A", "A", "B"] : List String).toFinset ∩
                    (["A"] : List String).toFinset).card : ℚ)
                 / (((["A", "A", "B"] : List String).length : ℕ) : ℚ) ∧
      r.value ≠ (((["A", "A", "B"] : List String).toFinset ∩
                    (["A"] : List String).toFinset).card : ℚ)
                 / (((["A", "A", "B"] : List String).toFinset.card : ℕ) : ℚ) := by
  obtain ⟨r, hr, hv⟩ :=
    tool_unordered_value ["A", "A", "B"] ["A"] (1/2)
      { input := "i", expected_tools := some ["A", "A", "B"], tools_called := some ["A"] }
      rfl rfl (by decide)
  rw [show ((["A", "A", "B"] : List String).filter
        (fun tool => tool ∈ (["A"] : List String))).length = 2 from rfl] at hv
  norm_num at hv
  rw [show ((["A", "A", "B"] : List String).toFinset ∩
        (["A"] : List String).toFinset).card = 1 from rfl,
    show (["A", "A", "B"] : List String).toFinset.card = 2 from rfl]
  refine ⟨r, hr, hv, ?_, ?_⟩ <;> rw [hv] <;> norm_num

/-- C8 (amended): in unordered mode ToolCorrectnessScorer is invariant
under permutation of tools_called; its value is the number of
expected_tools entries (counted with multiplicity) present in tools_called
divided by the length of expected_tools, which for duplicate-free
expected_tools equals |{expected} ∩ {actual}| / |expected|, extra actual
tools never penalizing; ordered mode is not invariant under permutation. -/
theorem C8_amended :
    (∀ (expected a1 a2 : List String) (thr : ℚ),
        a1.Perm a2 →
        ∃ r1 r2,
          ToolCorrectnessScorer.score { check_order := false, threshold := thr }
              { input := "i", expected_tools := some expected, tools_called := some a1 }
            = .ok r1 ∧
          ToolCorrectnessScorer.score { check_order := false, threshold := thr }
              { input := "i", expected_tools := some expected, tools_called := some a2 }
            = .ok r2 ∧
          r1.value = r2.value)
    ∧ (∀ (expected actual : List String) (thr : ℚ), expected ≠ [] →
        ∃ r, ToolCorrectnessScorer.score { check_order := false, threshold := thr }
            { input := "i", expected_tools := some expected, tools_called := some actual }
          = .ok r ∧
          r.value = ((expected.filter (fun tool => tool ∈ actual)).length : ℚ)
                      / (expected.length : ℚ))
    ∧ (∀ (expected actual : List String) (thr : ℚ), expected ≠ [] → expected.Nodup →
        ∃ r, ToolCorrectnessScorer.score { check_order := false, threshold := thr }
            { input := "i", expected_tools := some expected, tools_called := some actual }
          = .ok r ∧
          r.value = ((expected.toFinset ∩ actual.toFinset).card : ℚ)
                      / (expected.length : ℚ))
    ∧ (∃ r1 r2,
        ToolCorrectnessScorer.score { check_order := true, threshold := 1/2 }
            { input := "i", expected_tools := some ["A", "B"],
              tools_called := some ["A", "B"] } = .ok r1 ∧
        ToolCorrectnessScorer.score { check_order := true, threshold := 1/2 }
            { input := "i", expected_tools := some ["A", "B"],
              tools_called := some ["B", "A"] } = .ok r2 ∧
        (["A", "B"] : List String).Perm ["B", "A"] ∧ r1.value ≠ r2.value) := by
  refine ⟨?_, ?_, ?_, ?_⟩
  · intro expected a1 a2 thr hperm
    by_cases hE : expected = []
    · subst hE; exact ⟨_, _, rfl, rfl, rfl⟩
    · have hfil : expected.filter (fun tool => tool ∈ a1)
          = expected.filter (fun tool => tool ∈ a2) :=
        List.filter_congr (fun x _ => by simp [hperm.mem_iff])
      obtain ⟨r1, hr1, hv1⟩ := tool_unordered_value expected a1 thr
        { input := "i", expected_tools := some expected, tools_called := some a1 }
        rfl rfl hE
      obtain ⟨r2, hr2, hv2⟩ := tool_unordered_value expected a2 thr
        { input := "i", expected_tools := some expected, tools_called := some a2 }
        rfl rfl hE
      exact ⟨r1, r2, hr1, hr2, by rw [hv1, hv2, hfil]⟩
  · intro expected actual thr hne
    exact tool_unordered_value expected actual thr
      { input := "i", expected_tools := some expected, tools_called := some actual }
      rfl rfl hne
  · intro expected actual thr hne hnd
    obtain ⟨r, hr, hv⟩ := tool_unordered_value expected actual thr
      { input := "i", expected_tools := some expected, tools_called := some actual }
      rfl rfl hne
    exact ⟨r, hr, by rw [hv, filter_mem_length_eq_card expected actual hnd]⟩
  · obtain ⟨r1, hr1, hv1⟩ :=
      tool_ordered_value ["A", "B"] ["A", "B"] (1/2)
        { input := "i", expected_tools := some ["A", "B"],
          tools_called := some ["A", "B"] } rfl rfl (by decide)
    obtain ⟨r2, hr2, hv2⟩ :=
      tool_ordered_value ["A", "B"] ["B", "A"] (1/2)
        { input := "i", expected_tools := some ["A", "B"],
          tools_called := some ["B", "A"] } rfl rfl (by decide)
    rw [show orderedMatched ["A", "B"] ["A", "B"] = 2 from rfl] at hv1
    rw [show orderedMatched ["A", "B"] ["B", "A"] = 1 from rfl] at hv2
    norm_num at hv1 hv2
    exact ⟨r1, r2, hr1, hr2, by decide, by rw [hv1, hv2]; norm_num⟩

/-- C8 witness: the permutation-invariance part applied at expected [A, B],
tools_called [B, A] versus [A, B]. -/
theorem C8_witness :
    ∃ r1 r2,
      ToolCorrectnessScorer.score { check_order := false, threshold := 1/2 }
          { input := "i", expected_tools := some ["A", "B"],
            tools_called := some ["B", "A"] } = .ok r1 ∧
      ToolCorrectnessScorer.score { check_order := false, threshold := 1/2 }
          { input := "i", expected_tools := some ["A", "B"],
            tools_called := some ["A", "B"] } = .ok r2 ∧
      r1.value = r2.value :=
  C8_amended.1 ["A", "B"] ["B", "A"] ["A", "B"] (1/2) (List.Perm.swap "A" "B" [])

/-- The clamp both judge scorers apply lands in the closed interval [0,1]. -/
theorem clamp01_bounds (q : ℚ) : 0 ≤ clamp01 q ∧ clamp01 q ≤ 1 :=
  ⟨le_max_left 0 _, max_le (by norm_num) (min_le_left 1 q)⟩

/-- C2: the judge response "null" is valid JSON whose value is not an
object, so LLMJudgeScorer's parsing reaches `parsed.get` on None and raises
AttributeError — which the except clause does not catch — instead of
returning a clamped ScoreResult; this refutes the never-raises contract at
this input (the spec's stated intent, which the code's own docstring
shares, so the code is in the wrong). -/
theorem C2_judge_parse_raises :
    llm_judge_parse "null" = .error .attributeError ∧
    llm_judge_score_value "null" = .error .attributeError :=
  ⟨rfl, rfl⟩

/-- C6 counterexample: on a markdown-fenced JSON response (score 1),
FaithfulnessScorer does not strip the fence before JSON-parsing — it
returns value 0.0 with a parse-failure reason, while LLMJudgeScorer's
parser (which the claim says it shares, fence-stripping included) parses
the same response to score 1. -/
theorem C6_counterexample :
    (∃ v, faithfulness_parse "```json\n\x7b\"score\": 1, \"reason\": \"ok\"\x7d\n```"
        = .ok (0, v))
    ∧ (∃ v, llm_judge_parse "```json\n\x7b\"score\": 1, \"reason\": \"ok\"\x7d\n```"
        = .ok (1, v))
    ∧ (0 : ℚ) ≠ 1 :=
  ⟨⟨_, rfl⟩, ⟨_, rfl⟩, by norm_num⟩

/-- C6 (amended): FaithfulnessScorer applies the same clamping contract as
LLMJudgeScorer but JSON-parses the raw response without stripping markdown
fences and without a regex fallback: every response whose JSON parse fails
yields value 0.0 with a reason containing a truncated (100-character)
prefix of the raw response, and every returned score value lies in [0,1]. -/
theorem C6_amended (content : String) :
    (json_loads content = none →
      faithfulness_parse content
        = .ok (0, .pyStr ("Failed to parse response: " ++ ⟨content.data.take 100⟩)))
    ∧ (∀ q, faithfulness_score_value content = .ok q → 0 ≤ q ∧ q ≤ 1) := by
  constructor
  · intro h
    simp only [faithfulness_parse, h]
  · intro q hq
    rw [faithfulness_score_value] at hq
    cases hfp : faithfulness_parse content with
    | error e => rw [hfp] at hq; cases hq
    | ok p =>
      rw [hfp] at hq
      injection hq with hq
      exact hq ▸ clamp01_bounds p.1

/-- C6 witness: the amended claim applied at a plain-prose response (JSON
parse fails, value 0.0 with the truncated prefix) and at a response whose
score 5 is clamped into [0,1]. -/
theorem C6_witness :
    (faithfulness_parse "plain prose, no json"
      = .ok (0, .pyStr ("Failed to parse response: "
          ++ ⟨("plain prose, no json" : String).data.take 100⟩)))
    ∧ (∃ q, faithfulness_score_value "\x7b\"score\": 5, \"reason\": \"big\"\x7d" = .ok q ∧
        0 ≤ q ∧ q ≤ 1) :=
  ⟨(C6_amended "plain prose, no json").1 rfl,
   ⟨_, rfl, (C6_amended "\x7b\"score\": 5, \"reason\": \"big\"\x7d").2 _ rfl⟩⟩

/-- Indexing a mapped list below its length applies the function to the
indexed element. -/
theorem getD_map_lt {α β : Type} (f : α → β) (l : List α) (i : ℕ) (hi : i < l.length)
    (d : β) (d' : α) : (l.map f).getD i d = f (l.getD i d') := by
  have h1 : l[i]? = some (l.getD i d') := by
    rw [List.getElem?_eq_getElem hi, List.getD_eq_getElem?_getD,
      List.getElem?_eq_getElem hi]
    rfl
  rw [List.getD_eq_getElem?_getD, List.getElem?_map, h1]
  rfl

/-- A key present in the scores dict stays present while the remaining
scorers run. -/
theorem runScorersGo_alookup_isSome (tc : TestCase) (scorers : List Scorer)
    (acc : List (String × ScoreResult)) (cost : ℚ) (j : String)
    (h : (alookup acc j).isSome = true) :
    (alookup (runScorersGo tc scorers acc cost).1 j).isSome = true := by
  induction scorers generalizing acc cost with
  | nil => exact h
  | cons s rest ih =>
    apply ih
    by_cases hj : j = (s.score tc).name
    · rw [hj, dictInsert_alookup_self]; rfl
    · rw [dictInsert_alookup_ne _ _ _ _ hj]; exact h

/-- Every scorer in the list leaves an entry under its result's name. -/
theorem runScorersGo_alookup_mem (tc : TestCase) (s : Scorer) :
    ∀ (scorers : List Scorer) (acc : List (String × ScoreResult)) (cost : ℚ),
      s ∈ scorers →
      (alookup (runScorersGo tc scorers acc cost).1 (s.score tc).name).isSome = true := by
  intro scorers
  induction scorers with
  | nil => intro acc cost hs; cases hs
  | cons s0 rest ih =>
    intro acc cost hs
    rcases List.mem_cons.mp hs with rfl | hs'
    · show (alookup (runScorersGo tc rest
          (dictInsert acc (s.score tc).name (s.score tc))
          (cost + (s.score tc).cost_usd.getD 0)).1 (s.score tc).name).isSome = true
      apply runScorersGo_alookup_isSome
      rw [dictInsert_alookup_self]; rfl
    · exact ih _ _ hs'

/-- The per-item record when the task raises. -/
theorem runItem_error (task : String → Except String String) (scorers : List Scorer)
    (tc : TestCase) (msg : String) (h : task tc.input = .error msg) :
    (runItem (some task) scorers tc).1 =
      { test_case_id := tc.id, input := tc.input,
        actual_output := tc.actual_output.getD "",
        expected_output := tc.expected_output, scores := [], error := some msg } := by
  simp [runItem, h]

/-- The per-item record when the task returns. -/
theorem runItem_ok (task : String → Except String String) (scorers : List Scorer)
    (tc : TestCase) (out : String) (h : task tc.input = .ok out) :
    (runItem (some task) scorers tc).1 =
      { test_case_id := tc.id, input := tc.input, actual_output := out,
        expected_output := tc.expected_output,
        scores := (runScorersGo { tc with actual_output := some out } scorers [] 0).1,
        error := none } := by
  simp [runItem, h]

/-- runItem never changes the item's id or input. -/
theorem runItem_id_input (task : Option (String → Except String String))
    (scorers : List Scorer) (tc : TestCase) :
    (runItem task scorers tc).1.test_case_id = tc.id ∧
    (runItem task scorers tc).1.input = tc.input := by
  cases task with
  | none => exact ⟨rfl, rfl⟩
  | some f =>
    cases hf : f tc.input with
    | ok out => simp [runItem, hf]
    | error e => simp [runItem, hf]

/-- C1: over N test cases with a task that raises exactly on item k, Eval
still returns N EvalResults in input order; item k carries the error string
and an empty scores map, and every other item has no error and an entry
from every supplied scorer. -/
theorem C1_failure_isolation
    (tcs : List TestCase) (task : String → Except String String) (scorers : List Scorer)
    (k : ℕ) (hk : k < tcs.length) (hscorers : scorers ≠ [])
    (hname : ∀ s ∈ scorers, ∀ tc, (s.score tc).name = s.name)
    (hfailk : ∃ msg, task ((tcs.getD k dfltTC).input) = .error msg)
    (hok : ∀ i, i < tcs.length → i ≠ k →
        ∃ out, task ((tcs.getD i dfltTC).input) = .ok out) :
    ∃ results summary cost,
      EvalRun tcs (some task) scorers = .ok (results, summary, cost) ∧
      results.length = tcs.length ∧
      (∀ i, i < tcs.length →
        (results.getD i dfltER).test_case_id = (tcs.getD i dfltTC).id ∧
        (results.getD i dfltER).input = (tcs.getD i dfltTC).input) ∧
      (results.getD k dfltER).error.isSome = true ∧
      (results.getD k dfltER).scores = [] ∧
      (∀ i, i < tcs.length → i ≠ k →
        (results.getD i dfltER).error = none ∧
        ∀ s ∈ scorers,
          (alookup (results.getD i dfltER).scores s.name).isSome = true) := by
  have hdata : tcs ≠ [] := by
    intro h; subst h; exact absurd hk (by simp)
  have h1 : tcs.isEmpty = false := by simpa [List.isEmpty_iff] using hdata
  have h2 : scorers.isEmpty = false := by simpa [List.isEmpty_iff] using hscorers
  have hEval : EvalRun tcs (some task) scorers
      = .ok ((tcs.map (runItem (some task) scorers)).map Prod.fst,
             computeSummary ((tcs.map (runItem (some task) scorers)).map Prod.fst) scorers,
             ((tcs.map (runItem (some task) scorers)).map Prod.snd).sum) := by
    simp only [EvalRun, h1, h2, Bool.false_eq_true, if_false]
  set results := (tcs.map (runItem (some task) scorers)).map Prod.fst with hres
  have hres2 : results = tcs.map (fun tc => (runItem (some task) scorers tc).1) := by
    rw [hres, List.map_map]; rfl
  have hlen : results.length = tcs.length := by rw [hres2, List.length_map]
  have hget : ∀ i, i < tcs.length →
      results.getD i dfltER = (runItem (some task) scorers (tcs.getD i dfltTC)).1 := by
    intro i hi
    rw [hres2, getD_map_lt _ _ _ hi]
  refine ⟨results, _, _, hEval, hlen, ?_, ?_, ?_, ?_⟩
  · intro i hi
    rw [hget i hi]
    exact runItem_id_input _ _ _
  · obtain ⟨msg, hmsg⟩ := hfailk
    rw [hget k hk, runItem_error task scorers _ msg hmsg]
    rfl
  · obtain ⟨msg, hmsg⟩ := hfailk
    rw [hget k hk, runItem_error task scorers _ msg hmsg]
  · intro i hi hik
    obtain ⟨out, hout⟩ := hok i hi hik
    rw [hget i hi, runItem_ok task scorers _ out hout]
    refine ⟨rfl, ?_⟩
    intro s hs
    have := runScorersGo_alookup_mem
      { tcs.getD i dfltTC with actual_output := some out } s scorers [] 0 hs
    rwa [hname s hs] at this

/-- C1 witness: two items, the task raising on item 0; one constant scorer. -/
theorem C1_witness :
    ∃ results summary cost,
      EvalRun [{ input := "a" }, { input := "b" }]
          (some (fun s => if s = "a" then .error "boom" else .ok "out"))
          [{ name := "S", threshold := some 0,
             score := fun _ => { name := "S", value := 1 } }]
        = .ok (results, summary, cost) ∧
      results.length = ([{ input := "a" }, { input := "b" }] : List TestCase).length ∧
      (∀ i, i < ([{ input := "a" }, { input := "b" }] : List TestCase).length →
        (results.getD i dfltER).test_case_id
          = (([{ input := "a" }, { input := "b" }] : List TestCase).getD i dfltTC).id ∧
        (results.getD i dfltER).input
          = (([{ input := "a" }, { input := "b" }] : List TestCase).getD i dfltTC).input) ∧
      (results.getD 0 dfltER).error.isSome = true ∧
      (results.getD 0 dfltER).scores = [] ∧
      (∀ i, i < ([{ input := "a" }, { input := "b" }] : List TestCase).length → i ≠ 0 →
        (results.getD i dfltER).error = none ∧
        ∀ s ∈ [({ name := "S", threshold := some 0,
                  score := fun _ => { name := "S", value := 1 } } : Scorer)],
          (alookup (results.getD i dfltER).scores s.name).isSome = true) :=
  C1_failure_isolation [{ input := "a" }, { input := "b" }]
    (fun s => if s = "a" then .error "boom" else .ok "out")
    [{ name := "S", threshold := some 0, score := fun _ => { name := "S", value := 1 } }]
    0 (by decide) (by simp)
    (by intro s hs tc; rcases List.mem_singleton.mp hs with rfl; rfl)
    ⟨"boom", rfl⟩
    (by
      intro i hi hne
      match i with
      | 0 => exact absurd rfl hne
      | 1 => exact ⟨"out", rfl⟩
      | (n + 2) => exact absurd hi (by simp))

/-- The summary fold leaves keys outside the remaining scorer names
untouched. -/
theorem computeSummaryGo_alookup_not_mem (results : List EvalResult) :
    ∀ (scorers : List Scorer) (acc : List (String × Stats)) (j : String),
      j ∉ scorers.map Scorer.name →
      alookup (computeSummaryGo results scorers acc) j = alookup acc j := by
  intro scorers
  induction scorers with
  | nil => intro acc j _; rfl
  | cons s rest ih =>
    intro acc j hj
    have hj0 : j ≠ s.name := fun h => hj (by simp [h])
    have hjr : j ∉ rest.map Scorer.name := fun h => hj (by simp [h])
    simp only [computeSummaryGo]
    by_cases hE : (scorerScores results s.name).isEmpty = true
    · rw [if_pos hE]; exact ih _ _ hjr
    · rw [if_neg hE, ih _ _ hjr, dictInsert_alookup_ne _ _ _ _ hj0]

/-- What the summary fold records under the name of a listed scorer:
nothing when the scorer has no scoreable item, its statistics otherwise. -/
theorem computeSummaryGo_alookup_mem (results : List EvalResult) (s : Scorer) :
    ∀ (scorers : List Scorer) (acc : List (String × Stats)),
      (scorers.map Scorer.name).Nodup → s ∈ scorers → alookup acc s.name = none →
      alookup (computeSummaryGo results scorers acc) s.name
        = if scorerScores results s.name = [] then none
          else some (statsOf (s.threshold.getD 0) (scorerScores results s.name)) := by
  intro scorers
  induction scorers with
  | nil => intro acc _ hs _; cases hs
  | cons s0 rest ih =>
    intro acc hnd hs hacc
    rw [List.map_cons, List.nodup_cons] at hnd
    obtain ⟨hnotin, hndr⟩ := hnd
    rcases List.mem_cons.mp hs with rfl | hs'
    · simp only [computeSummaryGo]
      by_cases hE : (scorerScores results s.name).isEmpty = true
      · rw [if_pos hE, computeSummaryGo_alookup_not_mem results rest acc _ hnotin, hacc,
          if_pos (List.isEmpty_iff.mp hE)]
      · rw [if_neg hE, computeSummaryGo_alookup_not_mem results rest _ _ hnotin,
          dictInsert_alookup_self, if_neg (fun h => hE (by rw [h]; rfl))]
    · have hne : s.name ≠ s0.name := by
        intro h
        exact hnotin (h ▸ List.mem_map_of_mem Scorer.name hs')
      simp only [computeSummaryGo]
      by_cases hE : (scorerScores results s0.name).isEmpty = true
      · rw [if_pos hE]; exact ih _ hndr hs' hacc
      · rw [if_neg hE]
        refine ih _ hndr hs' ?_
        rw [dictInsert_alookup_ne _ _ _ _ hne]; exact hacc

/-- C4: the per-scorer summary reports mean, min, max and pass_rate (the
fraction of scores at or above the scorer's threshold attribute, 0.0 when
absent), computed only over the items with no task error that produced a
ScoreResult under that scorer's name; a scorer with no such item is
omitted from the summary entirely. -/
theorem C4_summary_stats (results : List EvalResult) (scorers : List Scorer)
    (hnodup : (scorers.map Scorer.name).Nodup) :
    ∀ s ∈ scorers,
      (scorerScores results s.name = [] →
        alookup (computeSummary results scorers) s.name = none)
      ∧ (scorerScores results s.name ≠ [] →
        alookup (computeSummary results scorers) s.name
          = some { mean := (scorerScores results s.name).sum
                            / ((scorerScores results s.name).length : ℚ),
                   min := listMin (scorerScores results s.name),
                   max := listMax (scorerScores results s.name),
                   pass_rate := (((scorerScores results s.name).filter
                          (fun v => s.threshold.getD 0 ≤ v)).length : ℚ)
                        / ((scorerScores results s.name).length : ℚ) }) := by
  intro s hs
  have h := computeSummaryGo_alookup_mem results s scorers [] hnodup hs rfl
  constructor
  · intro hE; rw [computeSummary, h, if_pos hE]
  · intro hE; rw [computeSummary, h, if_neg hE]; rfl

/-- C4 witness: one scorer over one scored item and one task-failed item;
the failed item is excluded and the statistics are over the single score. -/
theorem C4_witness :
    alookup
        (computeSummary
          [{ test_case_id := "1", input := "a", actual_output := "o",
             expected_output := none,
             scores := [("S", { name := "S", value := 1 })], error := none },
           { test_case_id := "2", input := "b", actual_output := "",
             expected_output := none,
             scores := [("S", { name := "S", value := 0 })], error := some "boom" }]
          [{ name := "S", threshold := some 1,
             score := fun _ => { name := "S", value := 1 } }])
        "S"
      = some { mean := (scorerScores
                  [{ test_case_id := "1", input := "a", actual_output := "o",
                     expected_output := none,
                     scores := [("S", { name := "S", value := 1 })], error := none },
                   { test_case_id := "2", input := "b", actual_output := "",
                     expected_output := none,
                     scores := [("S", { name := "S", value := 0 })], error := some "boom" }]
                  "S").sum
                / ((scorerScores
                  [{ test_case_id := "1", input := "a", actual_output := "o",
                     expected_output := none,
                     scores := [("S", { name := "S", value := 1 })], error := none },
                   { test_case_id := "2", input := "b", actual_output := "",
                     expected_output := none,
                     scores := [("S", { name := "S", value := 0 })], error := some "boom" }]
                  "S").length : ℚ),
               min := listMin (scorerScores
                  [{ test_case_id := "1", input := "a", actual_output := "o",
                     expected_output := none,
                     scores := [("S", { name := "S", value := 1 })], error := none },
                   { test_case_id := "2", input := "b", actual_output := "",
                     expected_output := none,
                     scores := [("S", { name := "S", value := 0 })], error := some "boom" }]
                  "S"),
               max := listMax (scorerScores
                  [{ test_case_id := "1", input := "a", actual_output := "o",
                     expected_output := none,
                     scores := [("S", { name := "S", value := 1 })], error := none },
                   { test_case_id := "2", input := "b", actual_output := "",
                     expected_output := none,
                     scores := [("S", { name := "S", value := 0 })], error := some "boom" }]
                  "S"),
               pass_rate := (((scorerScores
                  [{ test_case_id := "1", input := "a", actual_output := "o",
                     expected_output := none,
                     scores := [("S", { name := "S", value := 1 })], error := none },
                   { test_case_id := "2", input := "b", actual_output := "",
                     expected_output := none,
                     scores := [("S", { name := "S", value := 0 })], error := some "boom" }]
                  "S").filter (fun v => (1 : ℚ) ≤ v)).length : ℚ)
                / ((scorerScores
                  [{ test_case_id := "1", input := "a", actual_output := "o",
                     expected_output := none,
                     scores := [("S", { name := "S", value := 1 })], error := none },
                   { test_case_id := "2", input := "b", actual_output := "",
                     expected_output := none,
                     scores := [("S", { name := "S", value := 0 })], error := some "boom" }]
                  "S").length : ℚ) } :=
  (C4_summary_stats _ _ (by simp) _ (List.mem_singleton.mpr rfl)).2 (by decide)

/-- Membership in an updated dict comes from the old dict or is the new
binding. -/
theorem dictInsert_mem {α : Type} (k : String) (v : α) :
    ∀ (d : List (String × α)) (q : String × α),
      q ∈ dictInsert d k v → q ∈ d ∨ q = (k, v) := by
  intro d
  induction d with
  | nil =>
    intro q hq
    simp only [dictInsert, List.mem_singleton] at hq
    exact Or.inr hq
  | cons p t ih =>
    rcases p with ⟨k', v'⟩
    intro q hq
    by_cases h : k' = k
    · have hde : dictInsert ((k', v') :: t) k v = (k, v) :: t := by
        simp [dictInsert, h]
      rw [hde, List.mem_cons] at hq
      rcases hq with h1 | hq
      · exact Or.inr h1
      · exact Or.inl (List.mem_cons_of_mem _ hq)
    · simp only [dictInsert, if_neg h, List.mem_cons] at hq
      rcases hq with h1 | hq
      · exact Or.inl (by rw [h1]; exact List.mem_cons_self _ _)
      · rcases ih q hq with h' | h'
        · exact Or.inl (List.mem_cons_of_mem _ h')
        · exact Or.inr h'

/-- Every entry of the comparison fold is an inherited entry or the entry
built for some candidate-summary name. -/
theorem compareGo_mem (baseline : List (String × Stats)) :
    ∀ (cand : List (String × Stats)) (comp : List (String × CompEntry))
      (q : String × CompEntry),
      q ∈ compareGo baseline cand comp →
      q ∈ comp ∨ ∃ name st, (name, st) ∈ cand ∧ q = (name, compEntryOf baseline name st) := by
  intro cand
  induction cand with
  | nil => intro comp q hq; exact Or.inl hq
  | cons p rest ih =>
    rcases p with ⟨name, st⟩
    intro comp q hq
    rcases ih _ q hq with h | ⟨n, s, hmem, rfl⟩
    · rcases dictInsert_mem name (compEntryOf baseline name st) comp q h with h' | rfl
      · exact Or.inl h'
      · exact Or.inr ⟨name, st, List.mem_cons_self _ _, rfl⟩
    · exact Or.inr ⟨n, s, List.mem_cons_of_mem _ hmem, rfl⟩

/-- The comparison fold leaves keys outside the remaining candidate names
untouched. -/
theorem compareGo_alookup_not_mem (baseline : List (String × Stats)) :
    ∀ (cand : List (String × Stats)) (comp : List (String × CompEntry)) (j : String),
      j ∉ cand.map Prod.fst →
      alookup (compareGo baseline cand comp) j = alookup comp j := by
  intro cand
  induction cand with
  | nil => intro comp j _; rfl
  | cons p rest ih =>
    rcases p with ⟨n0, st0⟩
    intro comp j hj
    have hj0 : j ≠ n0 := fun h => hj (by simp [h])
    have hjr : j ∉ rest.map Prod.fst := fun h => hj (by simp [h])
    show alookup (compareGo baseline rest (dictInsert comp n0 (compEntryOf baseline n0 st0))) j
        = alookup comp j
    rw [ih _ _ hjr, dictInsert_alookup_ne _ _ _ _ hj0]

/-- What the comparison fold records under a candidate-summary name. -/
theorem compareGo_alookup_mem (baseline : List (String × Stats)) (name : String)
    (st : Stats) :
    ∀ (cand : List (String × Stats)) (comp : List (String × CompEntry)),
      (cand.map Prod.fst).Nodup → (name, st) ∈ cand → alookup comp name = none →
      alookup (compareGo baseline cand comp) name = some (compEntryOf baseline name st) := by
  intro cand
  induction cand with
  | nil => intro comp _ hm _; cases hm
  | cons p rest ih =>
    rcases p with ⟨n0, st0⟩
    intro comp hnd hm hacc
    rw [List.map_cons, List.nodup_cons] at hnd
    obtain ⟨hnotin, hndr⟩ := hnd
    rcases List.mem_cons.mp hm with heq | hm'
    · injection heq with h1 h2
      subst h1; subst h2
      show alookup (compareGo baseline rest (dictInsert comp name (compEntryOf baseline name st))) name
          = some (compEntryOf baseline name st)
      rw [compareGo_alookup_not_mem baseline rest _ _ hnotin, dictInsert_alookup_self]
    · have hne : name ≠ n0 := by
        have hmm : name ∈ rest.map Prod.fst := List.mem_map_of_mem Prod.fst hm'
        intro h; rw [h] at hmm; exact hnotin hmm
      show alookup (compareGo baseline rest (dictInsert comp n0 (compEntryOf baseline n0 st0))) name
          = some (compEntryOf baseline name st)
      exact ih _ hndr hm' (by rw [dictInsert_alookup_ne _ _ _ _ hne]; exact hacc)

/-- The comparison fold appends the candidate names to the accumulated
keys, in order. -/
theorem compareGo_map_fst (baseline : List (String × Stats)) :
    ∀ (cand : List (String × Stats)) (comp : List (String × CompEntry)),
      (∀ p ∈ cand, alookup comp p.1 = none) → (cand.map Prod.fst).Nodup →
      (compareGo baseline cand comp).map Prod.fst
        = comp.map Prod.fst ++ cand.map Prod.fst := by
  intro cand
  induction cand with
  | nil => intro comp _ _; simp [compareGo]
  | cons p rest ih =>
    rcases p with ⟨n0, st0⟩
    intro comp hfresh hnd
    rw [List.map_cons, List.nodup_cons] at hnd
    obtain ⟨hnotin, hndr⟩ := hnd
    have hacc : alookup comp n0 = none := hfresh (n0, st0) (List.mem_cons_self _ _)
    show (compareGo baseline rest (dictInsert comp n0 (compEntryOf baseline n0 st0))).map Prod.fst
        = comp.map Prod.fst ++ (n0, st0).1 :: rest.map Prod.fst
    rw [ih _ ?_ hndr, dictInsert_map_fst_of_fresh _ _ _ hacc]
    · simp
    · intro p hp
      have hne : p.1 ≠ n0 := by
        have hmm : p.1 ∈ rest.map Prod.fst := List.mem_map_of_mem Prod.fst hp
        intro h; rw [h] at hmm; exact hnotin hmm
      rw [dictInsert_alookup_ne _ _ _ _ hne]
      exact hfresh p (List.mem_cons_of_mem _ hp)

/-- The comparison entry with the baseline mean written through
Option.getD (the `.get(name, default)` chain of the source). -/
theorem compEntryOf_eq (baseline : List (String × Stats)) (name : String) (st : Stats) :
    compEntryOf baseline name st
      = { baseline := ((alookup baseline name).map Stats.mean).getD 0,
          candidate := st.mean,
          delta := st.mean - ((alookup baseline name).map Stats.mean).getD 0,
          improved := decide (0 < st.mean - ((alookup baseline name).map Stats.mean).getD 0) } := by
  cases h : alookup baseline name <;> simp [compEntryOf, h]

/-- C9: the comparison reports exactly the scorer names of the candidate's
summary, in order (baseline-only scorers absent); each entry uses baseline
mean 0.0 when the baseline lacks the name, delta = candidate mean minus
baseline mean, and improved exactly when delta is strictly positive. -/
theorem C9_compare (baseline candidate : List (String × Stats))
    (hnodup : (candidate.map Prod.fst).Nodup) :
    (compare_experiments baseline candidate).map Prod.fst = candidate.map Prod.fst
    ∧ (∀ name st, (name, st) ∈ candidate →
        alookup (compare_experiments baseline candidate) name
          = some { baseline := ((alookup baseline name).map Stats.mean).getD 0,
                   candidate := st.mean,
                   delta := st.mean - ((alookup baseline name).map Stats.mean).getD 0,
                   improved := decide (0 < st.mean
                      - ((alookup baseline name).map Stats.mean).getD 0) })
    ∧ (∀ p ∈ compare_experiments baseline candidate,
        (p.2.improved = true ↔ 0 < p.2.delta)
        ∧ p.2.delta = p.2.candidate - p.2.baseline) := by
  refine ⟨?_, ?_, ?_⟩
  · have h := compareGo_map_fst baseline candidate [] (fun p _ => rfl) hnodup
    simpa [compare_experiments] using h
  · intro name st hm
    rw [compare_experiments,
      compareGo_alookup_mem baseline name st candidate [] hnodup hm rfl, compEntryOf_eq]
  · intro p hp
    rcases compareGo_mem baseline candidate [] p hp with h | ⟨n, s, _, rfl⟩
    · cases h
    · constructor
      · cases halo : alookup baseline n <;> simp [compEntryOf, halo]
      · cases halo : alookup baseline n <;> simp [compEntryOf, halo]

/-- C9 witness: a candidate-only scorer name T defaults its baseline mean
to 0. -/
theorem C9_witness :
    alookup
        (compare_experiments [("S", { mean := 1, min := 1, max := 1, pass_rate := 1 })]
          [("S", { mean := 0, min := 0, max := 0, pass_rate := 0 }),
           ("T", { mean := 1, min := 1, max := 1, pass_rate := 1 })])
        "T"
      = some { baseline := ((alookup
                  [("S", { mean := 1, min := 1, max := 1, pass_rate := 1 })] "T").map
                    Stats.mean).getD 0,
               candidate := (1 : ℚ),
               delta := (1 : ℚ) - ((alookup
                  [("S", { mean := 1, min := 1, max := 1, pass_rate := 1 })] "T").map
                    Stats.mean).getD 0,
               improved := decide ((0 : ℚ) < (1 : ℚ) - ((alookup
                  [("S", { mean := 1, min := 1, max := 1, pass_rate := 1 })] "T").map
                    Stats.mean).getD 0) } :=
  (C9_compare _ _ (by decide)).2.1 "T"
    { mean := 1, min := 1, max := 1, pass_rate := 1 } (by simp)

/-- C7 witness: the fraction formula applied at keywords [a, b] and output
"xAy" (value 1/2: only the first keyword occurs, case-insensitively). -/
theorem C7_witness :
    (ContainsAllScorer.score ⟨["a", "b"], 1/2⟩
        { input := "i", actual_output := some "xAy" }).value
      = (((["a", "b"] : List String).filter (fun k => kwFound k "xAy")).length : ℚ)
        / (((["a", "b"] : List String).length : ℚ)) :=
  (C7_contains_all.2 ["a", "b"] (1/2) _).2.2 "xAy" rfl (by decide) (by decide)

end OpenEval
